import Mathlib

/-!
Verification of the in-memory order store, HTTP handler guards and MCP
session registry of the MCP-Project repository (`main.py`,
`mcp_blueprint.py`, `mcp_blueprint_new.py`).

Python dictionaries are modelled as association lists with unique-key
update semantics (`dictGet`, `dictInsert`, `dictRemove`); Python floats
appearing in prices and timestamps are modelled as exact rationals, with
`round(x, 2)` modelled as exact half-to-even rounding at two decimals.
-/

/-- `d.get(k)` on a Python dict: first binding of `k`, if any. -/
def dictGet {α : Type} : List (String × α) → String → Option α
  | [], _ => none
  | (k', v) :: rest, k => if k' = k then some v else dictGet rest k

/-- `d[k] = v` on a Python dict: replace the existing binding in place,
or append a new binding at the end. -/
def dictInsert {α : Type} : List (String × α) → String → α → List (String × α)
  | [], k, v => [(k, v)]
  | (k', v') :: rest, k, v =>
    if k' = k then (k, v) :: rest else (k', v') :: dictInsert rest k v

/-- `d.pop(k, None)` / `del d[k]` on a Python dict: drop the binding of `k`. -/
def dictRemove {α : Type} (m : List (String × α)) (k : String) : List (String × α) :=
  m.filter (fun kv => kv.1 != k)

namespace Main

/-- A line item of an order: the `price`, `quantity` and `subtotal` keys of
the item dict, `none` when the key is absent (or bound to `None`). -/
structure LineItem where
  price : Option ℚ
  quantity : Option ℚ
  subtotal : Option ℚ
deriving DecidableEq

/-- An order record: the keys of the order dict that the store and the
handlers inspect; `none` models an absent key. -/
structure Order where
  id : Option String
  items : List LineItem
  order_total : Option ℚ
  shipping_address : Option String
  status : Option String
deriving DecidableEq

/-- The `_CURRENT_ORDERS` mapping: email to list of order records. -/
abbrev OrdersMap := List (String × List Order)

/-- `get_orders_for_user`: the user's list, empty if absent (the deep copy
is the identity on immutable values). -/
def get_orders_for_user (m : OrdersMap) (email : String) : List Order :=
  (dictGet m email).getD []

/-- `set_orders_for_user`: wholesale replacement of the user's list. -/
def set_orders_for_user (m : OrdersMap) (email : String) (orders : List Order) : OrdersMap :=
  dictInsert m email orders

/-- `add_order_for_user`: `setdefault(email, []).append(order)`. -/
def add_order_for_user (m : OrdersMap) (email : String) (o : Order) : OrdersMap :=
  match dictGet m email with
  | some orders => dictInsert m email (orders ++ [o])
  | none => dictInsert m email [o]

/-- `find_order_for_user`: first order of the user whose `id` key equals
`order_id` (`o.get("id") == order_id`). -/
def find_order_for_user (m : OrdersMap) (email : String) (order_id : String) : Option Order :=
  ((dictGet m email).getD []).find? (fun o => decide (o.id = some order_id))

/-- The scan of `remove_order_for_user`: delete the first order whose `id`
equals `order_id`, reporting `none` when no order matches. -/
def removeFirstOrder : List Order → String → Option (List Order)
  | [], _ => none
  | o :: rest, order_id =>
    if o.id = some order_id then some rest
    else
      match removeFirstOrder rest order_id with
      | some rest' => some (o :: rest')
      | none => none

/-- `remove_order_for_user`: returns the success flag and the new store.
A user whose list becomes empty is dropped from the mapping. -/
def remove_order_for_user (m : OrdersMap) (email : String) (order_id : String) :
    Bool × OrdersMap :=
  match dictGet m email with
  | none => (false, m)
  | some orders =>
    if orders.isEmpty then (false, m)
    else
      match removeFirstOrder orders order_id with
      | none => (false, m)
      | some rest =>
        if rest.isEmpty then (true, dictRemove m email)
        else (true, dictInsert m email rest)

/-- `int(q)` on a nonnegative-or-negative rational: truncation toward zero,
as Python's `int()` on a float. -/
def pyTrunc (q : ℚ) : ℤ := Int.tdiv q.num (Int.ofNat q.den)

/-- Round half to even at integer precision, as Python's `round`. -/
def roundHalfEven (q : ℚ) : ℤ :=
  let f : ℤ := Int.fdiv q.num (Int.ofNat q.den)
  let r : ℚ := q - (f : ℚ)
  if r < 1/2 then f
  else if 1/2 < r then f + 1
  else if f % 2 = 0 then f else f + 1

/-- `round(q, 2)`: round half to even at two decimal places. -/
def round2 (q : ℚ) : ℚ := (roundHalfEven (q * 100) : ℚ) / 100

/-- `float(it.get("price", 0) or 0)`: absent, `None` or zero become `0`. -/
def itemPrice (it : LineItem) : ℚ :=
  match it.price with
  | none => 0
  | some q => q

/-- `int(it.get("quantity", 0) or 0)`: absent or `None` become `0`,
a fractional quantity is truncated toward zero. -/
def itemQty (it : LineItem) : ℤ :=
  match it.quantity with
  | none => 0
  | some q => pyTrunc q

/-- One line of the loop body of `recalc_order_total`:
`round(price * qty, 2)`. -/
def lineSubtotal (it : LineItem) : ℚ := round2 (itemPrice it * (itemQty it : ℚ))

/-- The loop of `recalc_order_total`: accumulates the running total and
rebuilds the item list with `it["subtotal"]` set. -/
def recalcLoop : List LineItem → ℚ → List LineItem → ℚ × List LineItem
  | [], total, acc => (total, acc.reverse)
  | it :: rest, total, acc =>
    let subtotal := lineSubtotal it
    recalcLoop rest (total + subtotal) (⟨it.price, it.quantity, some subtotal⟩ :: acc)

/-- `recalc_order_total`: returns `round(total, 2)` together with the order
whose items now carry their recomputed subtotals (the in-place mutation of
`order["items"]`). -/
def recalc_order_total (o : Order) : ℚ × Order :=
  let p := recalcLoop o.items 0 []
  (round2 p.1, ⟨o.id, p.2, o.order_total, o.shipping_address, o.status⟩)

/-- The order-construction step of `put_order`: `new_order = dict(payload)`,
`new_order["id"] = order_id`, then either store the recomputed total (when
the payload has no `order_total`) or keep the payload's total and only
normalize the subtotals. -/
def put_order_build (payload : Order) (order_id : String) : Order :=
  let n0 : Order :=
    ⟨some order_id, payload.items, payload.order_total, payload.shipping_address,
      payload.status⟩
  match payload.order_total with
  | none =>
    let p := recalc_order_total n0
    ⟨p.2.id, p.2.items, some p.1, p.2.shipping_address, p.2.status⟩
  | some _ => (recalc_order_total n0).2

/-- Modelled from the spec: the testable property's total, "the sum of
`round(price*quantity,2)` over all lines, rounded to two decimals". -/
def specTotal (items : List LineItem) : ℚ :=
  round2 ((items.map lineSubtotal).sum)

/-- `ALLOWED_KEYS = {API_KEY}`. -/
def ALLOWED_KEYS : List String := ["qqww22ttzxqwr6778"]

/-- `is_valid_api_key`: `None` and the empty string are falsy and rejected;
otherwise membership in the allow-list decides. -/
def is_valid_api_key (key : Option String) : Bool :=
  match key with
  | none => false
  | some k => if k = "" then false else decide (k ∈ ALLOWED_KEYS)

/-- A handler response: either a JSON payload or a `{"error": msg}` body,
with its HTTP status code. -/
inductive ApiResponse (α : Type) where
  | ok (val : α) (status : Nat)
  | err (msg : String) (status : Nat)
deriving DecidableEq

/-- The `require_api_key` decorator: run the wrapped view only when the
`X-API-KEY` header value passes `is_valid_api_key`, otherwise answer
`{"error": "Invalid or missing API key"}` with status 401. -/
def require_api_key {α : Type} (view_func : Unit → ApiResponse α) (key : Option String) :
    ApiResponse α :=
  if is_valid_api_key key then view_func ()
  else .err "Invalid or missing API key" 401

/-- The `name` value of a bulk-order item: a string, or some non-string
JSON value (`isinstance(name, str)` fails). -/
inductive JName where
  | str (s : String)
  | nonStr
deriving DecidableEq

/-- The raw `quantity` value of a bulk-order item: a value `float()`
coerces to the number `q`, or one on which `float()` raises. -/
inductive RawQty where
  | num (q : ℚ)
  | bad
deriving DecidableEq

/-- One entry of the `items` list of `POST /order/calculate-bulk`: either
not a JSON object, or an object with optional `name` and `quantity` keys. -/
inductive BulkEntry where
  | nonDict
  | item (name : Option JName) (rawQty : Option RawQty)
deriving DecidableEq

/-- The validation loop of `calculate_bulk_order`: either the first 400
error message, or the processed `(name.strip(), int(quantity))` pairs. -/
def processItems : List BulkEntry → Nat → List (String × ℤ) →
    Except String (List (String × ℤ))
  | [], _, acc => .ok acc.reverse
  | e :: rest, idx, acc =>
    match e with
    | .nonDict => .error ("Item at index " ++ toString idx ++ " must be an object")
    | .item name rawQty =>
      match name with
      | some (.str s) =>
        if s.trim = "" then
          .error ("Invalid or missing name for item at index " ++ toString idx)
        else
          match rawQty with
          | some (.num q) =>
            if q ≤ 0 then
              .error ("Quantity must be a positive number for item " ++ s)
            else processItems rest (idx + 1) ((s.trim, pyTrunc q) :: acc)
          | some .bad => .error ("Invalid quantity for item " ++ s)
          | none => .error ("Invalid quantity for item " ++ s)
      | some .nonStr => .error ("Invalid or missing name for item at index " ++ toString idx)
      | none => .error ("Invalid or missing name for item at index " ++ toString idx)

/-- The request body of `POST /order/calculate-bulk`, as the handler
distinguishes it: no `items` key (or falsy JSON), an `items` value that is
not a list, or a list of entries. -/
inductive BulkBody where
  | noItems
  | itemsNotList
  | items (l : List BulkEntry)
deriving DecidableEq

/-- `calculate_bulk_order`: HTTP status together with either the first
validation error or the processed items handed to the external
`get_bulk_order_quote` collaborator. -/
def calculate_bulk_order (b : BulkBody) : Nat × Except String (List (String × ℤ)) :=
  match b with
  | .noItems => (400, .error "Missing items list in request")
  | .itemsNotList => (400, .error "Items must be a list")
  | .items l =>
    match processItems l 0 [] with
    | .error m => (400, .error m)
    | .ok processed =>
      if processed.isEmpty then (400, .error "No valid items provided")
      else (200, .ok processed)

/-- The `_CURRENT_USER` dict (email/password keys); `none` is Python's
`None`, the state after start-up or `clear_current_user`. -/
abbrev UserDict := List (String × String)

/-- The hardcoded record `get_current_user` falls back to. -/
def DEFAULT_USER : UserDict :=
  [("email", "anto.sf3688@gmail.com"), ("password", "password")]

/-- `get_current_user`: the stored record when truthy (a nonempty dict),
else the hardcoded default. -/
def get_current_user (cur : Option UserDict) : UserDict :=
  match cur with
  | some u => if u.isEmpty then DEFAULT_USER else u
  | none => DEFAULT_USER

/-- Outcome of a guarded handler body: a JSON response with its status and
a tag describing the body, or an uncaught exception. -/
inductive HandlerResult where
  | resp (status : Nat) (tag : String)
  | raised (msg : String)
deriving DecidableEq

/-- The `logout` view body: its response and the new current-user slot. -/
def logout (cur : Option UserDict) : (Nat × String) × Option UserDict :=
  let user := get_current_user cur
  if user.isEmpty then ((401, "No user logged in"), cur)
  else ((200, "ok"), none)

/-- The `get_orders` view body: guard on a falsy user, then look up the
user's orders by its `email` key (a missing key would raise). -/
def get_orders (cur : Option UserDict) (m : OrdersMap) : HandlerResult × List Order :=
  let user := get_current_user cur
  if user.isEmpty then (.resp 401 "No user logged in", [])
  else
    match dictGet user "email" with
    | none => (.raised "KeyError", [])
    | some email => (.resp 200 "orders", get_orders_for_user m email)

end Main

namespace McpBlueprint

/-- `SESSION_TIMEOUT = 1800` seconds. -/
def SESSION_TIMEOUT : ℚ := 1800

/-- `active_sessions` of `mcp_blueprint.py`: session id to the timestamp
stored by `session_open` and refreshed by `validate_session`. -/
abbrev Sessions := List (String × ℚ)

/-- `validate_session` of `mcp_blueprint.py`: absent ids fail; an id idle
longer than the timeout is deleted and fails; otherwise the timestamp is
refreshed. `now` is the value of `time.time()`. -/
def validate_session (now : ℚ) (s : Sessions) (session_id : String) : Bool × Sessions :=
  match dictGet s session_id with
  | none => (false, s)
  | some ts =>
    if now - ts > SESSION_TIMEOUT then (false, dictRemove s session_id)
    else (true, dictInsert s session_id now)

/-- `session_open` of `mcp_blueprint.py`: store the current time. -/
def session_open (now : ℚ) (s : Sessions) (session_id : String) : Sessions :=
  dictInsert s session_id now

end McpBlueprint

namespace McpBlueprintNew

/-- `SESSION_TIMEOUT = 1800` seconds. -/
def SESSION_TIMEOUT : ℚ := 1800

/-- `MAX_REQUESTS_PER_MINUTE = 60`. -/
def MAX_REQUESTS_PER_MINUTE : ℕ := 60

/-- `RATE_LIMIT_WINDOW = 60` seconds. -/
def RATE_LIMIT_WINDOW : ℚ := 60

/-- The `SessionData` record of `mcp_blueprint_new.py`. -/
structure SessionData where
  timestamp : ℚ
  request_count : ℕ
  last_request : ℚ
deriving DecidableEq

/-- `active_sessions` of `mcp_blueprint_new.py`. -/
abbrev Sessions := List (String × SessionData)

/-- `validate_session` of `mcp_blueprint_new.py`: absent ids fail; expired
ids are deleted and fail; within the rate window a session at the request
ceiling fails untouched; otherwise timestamps are refreshed and the counter
is incremented (after a reset to 0 when the window elapsed). -/
def validate_session (now : ℚ) (s : Sessions) (session_id : String) : Bool × Sessions :=
  match dictGet s session_id with
  | none => (false, s)
  | some sd =>
    if now - sd.timestamp > SESSION_TIMEOUT then (false, dictRemove s session_id)
    else
      if now - sd.last_request < RATE_LIMIT_WINDOW then
        if sd.request_count ≥ MAX_REQUESTS_PER_MINUTE then (false, s)
        else (true, dictInsert s session_id ⟨now, sd.request_count + 1, now⟩)
      else (true, dictInsert s session_id ⟨now, 0 + 1, now⟩)

/-- `session_open` of `mcp_blueprint_new.py`: initialize or reset the
session with a zero request counter. -/
def session_open (now : ℚ) (s : Sessions) (session_id : String) : Sessions :=
  dictInsert s session_id ⟨now, 0, now⟩

/-- `session_close` of `mcp_blueprint_new.py`: delete if present. -/
def session_close (s : Sessions) (session_id : String) : Bool × Sessions :=
  if (dictGet s session_id).isSome then (true, dictRemove s session_id)
  else (false, s)

/-- States of `active_sessions` reachable from the empty registry through
`session_open`, `validate_session` and `session_close`, at arbitrary
times and session ids. -/
inductive Reachable : Sessions → Prop where
  | init : Reachable []
  | step_open {s : Sessions} (now : ℚ) (sid : String) :
      Reachable s → Reachable (session_open now s sid)
  | step_validate {s : Sessions} (now : ℚ) (sid : String) :
      Reachable s → Reachable (validate_session now s sid).2
  | step_close {s : Sessions} (sid : String) :
      Reachable s → Reachable (session_close s sid).2

end McpBlueprintNew

theorem dictGet_insert_self {α : Type} (m : List (String × α)) (k : String) (v : α) :
    dictGet (dictInsert m k v) k = some v := by
  induction m with
  | nil => simp [dictGet, dictInsert]
  | cons kv rest ih =>
    obtain ⟨a, b⟩ := kv
    by_cases h : a = k
    · simp [dictInsert, dictGet, h]
    · simp [dictInsert, dictGet, h, ih]

theorem dictGet_insert_ne {α : Type} (m : List (String × α)) (k k' : String) (v : α)
    (h : k' ≠ k) : dictGet (dictInsert m k v) k' = dictGet m k' := by
  have h' : ¬ k = k' := fun hh => h hh.symm
  induction m with
  | nil => simp [dictGet, dictInsert, h']
  | cons kv rest ih =>
    obtain ⟨a, b⟩ := kv
    by_cases ha : a = k
    · subst ha
      simp [dictInsert, dictGet, h']
    · simp [dictInsert, dictGet, ha, ih]

theorem dictGet_remove_self {α : Type} (m : List (String × α)) (k : String) :
    dictGet (dictRemove m k) k = none := by
  induction m with
  | nil => simp [dictGet, dictRemove]
  | cons kv rest ih =>
    obtain ⟨a, b⟩ := kv
    by_cases h : a = k
    · simpa [dictRemove, List.filter_cons, h] using ih
    · simpa [dictRemove, List.filter_cons, h, dictGet] using ih

theorem dictGet_remove_ne {α : Type} (m : List (String × α)) (k k' : String)
    (h : k' ≠ k) : dictGet (dictRemove m k) k' = dictGet m k' := by
  have h' : ¬ k = k' := fun hh => h hh.symm
  induction m with
  | nil => simp [dictGet, dictRemove]
  | cons kv rest ih =>
    obtain ⟨a, b⟩ := kv
    by_cases ha : a = k
    · subst ha
      simpa [dictRemove, List.filter_cons, dictGet, h'] using ih
    · by_cases ha' : a = k'
      · simp [dictRemove, List.filter_cons, ha, dictGet, ha', h]
      · simpa [dictRemove, List.filter_cons, ha, dictGet, ha'] using ih

theorem find_append_of_none {α : Type} (l₁ l₂ : List α) (p : α → Bool)
    (h : ∀ x ∈ l₁, p x = false) : (l₁ ++ l₂).find? p = l₂.find? p := by
  induction l₁ with
  | nil => rfl
  | cons a rest ih =>
    have ha := h a (List.mem_cons_self a rest)
    rw [List.cons_append, List.find?_cons_of_neg _ (by simp [ha]),
      ih (fun x hx => h x (List.mem_cons_of_mem a hx))]

/-- C1 is false as stated: when the user already holds an order with the
same id, `find_order_for_user` returns that earlier record, not the one
just added. Store `{"a": [o1]}` with `o1.id = "x"`, then add `o2 ≠ o1`
with the same id `"x"`: find returns `o1`. -/
theorem claim_C1_counterexample :
    Main.find_order_for_user
        (Main.add_order_for_user [("a", [⟨some "x", [], none, none, none⟩])] "a"
          ⟨some "x", [], none, none, some "Shipped"⟩) "a" "x" ≠
        some ⟨some "x", [], none, none, some "Shipped"⟩ ∧
      Main.find_order_for_user
          (Main.add_order_for_user [("a", [⟨some "x", [], none, none, none⟩])] "a"
            ⟨some "x", [], none, none, some "Shipped"⟩) "a" "x" =
        some ⟨some "x", [], none, none, none⟩ := by
  constructor
  · decide
  · decide

/-- C1 (amended): provided no order already stored for the email has the
new order's id, `add_order_for_user` followed by `find_order_for_user`
with that id returns a record equal to the one added. -/
theorem claim_C1_thm (m : Main.OrdersMap) (email : String) (o : Main.Order)
    (order_id : String) (hid : o.id = some order_id)
    (hfresh : ∀ o' ∈ Main.get_orders_for_user m email, o'.id ≠ some order_id) :
    Main.find_order_for_user (Main.add_order_for_user m email o) email order_id = some o := by
  unfold Main.add_order_for_user
  cases hm : dictGet m email with
  | none =>
    unfold Main.find_order_for_user
    rw [dictGet_insert_self]
    simp [List.find?, hid]
  | some orders =>
    unfold Main.find_order_for_user
    rw [dictGet_insert_self]
    have hall : ∀ o' ∈ orders, (decide (o'.id = some order_id)) = false := by
      intro o' ho'
      have := hfresh o' (by simpa [Main.get_orders_for_user, hm] using ho')
      simpa using this
    simpa [find_append_of_none orders [o] _ hall] using by simp [List.find?, hid]

/-- C1 witness: round trip on the empty store. -/
theorem claim_C1_witness :
    Main.find_order_for_user
        (Main.add_order_for_user [] "a" ⟨some "x", [], none, none, none⟩) "a" "x" =
      some ⟨some "x", [], none, none, none⟩ :=
  claim_C1_thm [] "a" ⟨some "x", [], none, none, none⟩ "x" rfl
    (by simp [Main.get_orders_for_user, dictGet])

/-- C2: removing a user's single remaining order (by its id) succeeds and
drops the user's key from the store entirely. -/
theorem claim_C2_thm (m : Main.OrdersMap) (email order_id : String) (o : Main.Order)
    (hm : dictGet m email = some [o]) (hid : o.id = some order_id) :
    (Main.remove_order_for_user m email order_id).1 = true ∧
      dictGet (Main.remove_order_for_user m email order_id).2 email = none := by
  unfold Main.remove_order_for_user
  rw [hm]
  simp [Main.removeFirstOrder, hid, dictGet_remove_self]

/-- C2 witness: a store holding one order for `"a"`. -/
theorem claim_C2_witness :
    (Main.remove_order_for_user [("a", [⟨some "x", [], none, none, none⟩])] "a" "x").1 = true ∧
      dictGet (Main.remove_order_for_user
        [("a", [⟨some "x", [], none, none, none⟩])] "a" "x").2 "a" = none :=
  claim_C2_thm [("a", [⟨some "x", [], none, none, none⟩])] "a" "x"
    ⟨some "x", [], none, none, none⟩ rfl rfl

theorem recalcLoop_fst (items : List Main.LineItem) (t : ℚ) (acc : List Main.LineItem) :
    (Main.recalcLoop items t acc).1 = t + (items.map Main.lineSubtotal).sum := by
  induction items generalizing t acc with
  | nil => simp [Main.recalcLoop]
  | cons it rest ih =>
    simp only [Main.recalcLoop, ih, List.map_cons, List.sum_cons]
    ring

/-- C3: the total returned by `recalc_order_total` is the sum over the line
items of `round(price*quantity, 2)`, itself rounded to two decimals
(`specTotal`), and the `put_order` replacement step stores exactly that
recomputed total when the payload carries no `order_total`. -/
theorem claim_C3_thm (o payload : Main.Order) (order_id : String)
    (h : payload.order_total = none) :
    (Main.recalc_order_total o).1 = Main.specTotal o.items ∧
      (Main.put_order_build payload order_id).order_total =
        some (Main.specTotal payload.items) := by
  constructor
  · simp [Main.recalc_order_total, Main.specTotal, recalcLoop_fst]
  · simp [Main.put_order_build, h, Main.recalc_order_total, Main.specTotal, recalcLoop_fst]

theorem roundHalfEven_intCast (n : ℤ) : Main.roundHalfEven (n : ℚ) = n := by
  unfold Main.roundHalfEven
  rw [Rat.num_intCast, Rat.den_intCast]
  norm_num [Int.fdiv_one]

theorem round2_eq_intCast_div (q : ℚ) (n : ℤ) (h : q * 100 = (n : ℚ)) :
    Main.round2 q = (n : ℚ) / 100 := by
  unfold Main.round2
  rw [h, roundHalfEven_intCast]

/-- C3 witness: the spec's example, items `(10.00, 3)` and `(4.50, 2)`
giving subtotals `30.00` and `9.00` and total `39.00`. -/
theorem claim_C3_witness :
    (Main.recalc_order_total ⟨some "ORD1",
        [⟨some 10, some 3, none⟩, ⟨some (9/2), some 2, none⟩], none, none, none⟩).1 = 39 ∧
      (Main.put_order_build ⟨none,
          [⟨some 10, some 3, none⟩, ⟨some (9/2), some 2, none⟩], none, none, none⟩
        "ORD1").order_total = some 39 := by
  have h := claim_C3_thm
    ⟨some "ORD1", [⟨some 10, some 3, none⟩, ⟨some (9/2), some 2, none⟩], none, none, none⟩
    ⟨none, [⟨some 10, some 3, none⟩, ⟨some (9/2), some 2, none⟩], none, none, none⟩
    "ORD1" rfl
  have l1 : Main.lineSubtotal ⟨some 10, some 3, none⟩ = 30 := by
    have hq : Main.itemQty ⟨some 10, some 3, none⟩ = 3 := by
      simp [Main.itemQty, Main.pyTrunc]
    unfold Main.lineSubtotal
    rw [hq, round2_eq_intCast_div _ 3000 (by simp [Main.itemPrice]; norm_num)]
    norm_num
  have l2 : Main.lineSubtotal ⟨some (9/2), some 2, none⟩ = 9 := by
    have hq : Main.itemQty ⟨some (9/2), some 2, none⟩ = 2 := by
      simp [Main.itemQty, Main.pyTrunc]
    unfold Main.lineSubtotal
    rw [hq, round2_eq_intCast_div _ 900 (by simp [Main.itemPrice]; norm_num)]
    norm_num
  have e1 : Main.specTotal [⟨some 10, some 3, none⟩, ⟨some (9/2), some 2, none⟩] = 39 := by
    unfold Main.specTotal
    rw [List.map_cons, List.map_cons, List.map_nil, l1, l2]
    rw [round2_eq_intCast_div _ 3900 (by norm_num [List.sum_cons, List.sum_nil])]
    norm_num
  exact ⟨h.1.trans e1, h.2.trans (by rw [e1])⟩

/-- C4: in both blueprint variants, `validate_session` returns false for an
identifier never opened (leaving the registry unchanged), and for a session
whose last recorded activity lies more than `SESSION_TIMEOUT = 1800`
seconds in the past it returns false and deletes the session. -/
theorem claim_C4_thm (now : ℚ) (sOld : McpBlueprint.Sessions)
    (sNew : McpBlueprintNew.Sessions) (sid : String) (ts : ℚ)
    (sd : McpBlueprintNew.SessionData) :
    (dictGet sOld sid = none →
      McpBlueprint.validate_session now sOld sid = (false, sOld)) ∧
    (dictGet sNew sid = none →
      McpBlueprintNew.validate_session now sNew sid = (false, sNew)) ∧
    (dictGet sOld sid = some ts → now - ts > McpBlueprint.SESSION_TIMEOUT →
      McpBlueprint.validate_session now sOld sid = (false, dictRemove sOld sid) ∧
        dictGet (McpBlueprint.validate_session now sOld sid).2 sid = none) ∧
    (dictGet sNew sid = some sd → now - sd.timestamp > McpBlueprintNew.SESSION_TIMEOUT →
      McpBlueprintNew.validate_session now sNew sid = (false, dictRemove sNew sid) ∧
        dictGet (McpBlueprintNew.validate_session now sNew sid).2 sid = none) := by
  refine ⟨?_, ?_, ?_, ?_⟩
  · intro h
    simp [McpBlueprint.validate_session, h]
  · intro h
    simp [McpBlueprintNew.validate_session, h]
  · intro h hgt
    constructor
    · simp [McpBlueprint.validate_session, h, hgt]
    · simp [McpBlueprint.validate_session, h, hgt, dictGet_remove_self]
  · intro h hgt
    constructor
    · simp [McpBlueprintNew.validate_session, h, hgt]
    · simp [McpBlueprintNew.validate_session, h, hgt, dictGet_remove_self]

/-- C4 witness: an unknown id fails on the old variant; on the new variant
a session last active at time 0 fails at time 2000 and is deleted. -/
theorem claim_C4_witness :
    McpBlueprint.validate_session 2000 [] "s" = (false, []) ∧
      McpBlueprintNew.validate_session 2000 [("a", ⟨0, 0, 0⟩)] "a" = (false, []) := by
  constructor
  · exact (claim_C4_thm 2000 [] [("a", ⟨0, 0, 0⟩)] "s" 0 ⟨0, 0, 0⟩).1 rfl
  · have h := (claim_C4_thm 2000 [] [("a", ⟨0, 0, 0⟩)] "a" 0 ⟨0, 0, 0⟩).2.2.2 rfl
      (by norm_num [McpBlueprintNew.SESSION_TIMEOUT])
    exact h.1.trans (by decide)

/-- C5: for an active (present and unexpired) session of the rate-limited
variant, `validate_session` resets the window counter to 1 once the
60-second window has elapsed; within the window it increments the counter
while it is below the ceiling of 60, and fails (leaving the registry
untouched) once the counter has reached the ceiling, i.e. once the window
would hold more than 60 requests. -/
theorem claim_C5_thm (now : ℚ) (s : McpBlueprintNew.Sessions) (sid : String)
    (sd : McpBlueprintNew.SessionData) (hget : dictGet s sid = some sd)
    (hlive : ¬ now - sd.timestamp > McpBlueprintNew.SESSION_TIMEOUT) :
    (¬ now - sd.last_request < McpBlueprintNew.RATE_LIMIT_WINDOW →
      McpBlueprintNew.validate_session now s sid =
        (true, dictInsert s sid ⟨now, 1, now⟩)) ∧
    (now - sd.last_request < McpBlueprintNew.RATE_LIMIT_WINDOW →
      sd.request_count < McpBlueprintNew.MAX_REQUESTS_PER_MINUTE →
      McpBlueprintNew.validate_session now s sid =
        (true, dictInsert s sid ⟨now, sd.request_count + 1, now⟩)) ∧
    (now - sd.last_request < McpBlueprintNew.RATE_LIMIT_WINDOW →
      sd.request_count ≥ McpBlueprintNew.MAX_REQUESTS_PER_MINUTE →
      McpBlueprintNew.validate_session now s sid = (false, s)) := by
  refine ⟨?_, ?_, ?_⟩
  · intro hwin
    simp [McpBlueprintNew.validate_session, hget, hlive, hwin]
  · intro hwin hlt
    have hcap : ¬ sd.request_count ≥ McpBlueprintNew.MAX_REQUESTS_PER_MINUTE :=
      Nat.not_le.mpr hlt
    simp [McpBlueprintNew.validate_session, hget, hlive, hwin, hcap]
  · intro hwin hge
    simp [McpBlueprintNew.validate_session, hget, hlive, hwin, hge]

/-- C5 witness: within the window the counter advances from 5 to 6; at the
ceiling of 60 the request fails and the registry is untouched; after the
window the counter restarts at 1. -/
theorem claim_C5_witness :
    McpBlueprintNew.validate_session 100 [("a", ⟨0, 5, 50⟩)] "a" =
        (true, [("a", ⟨100, 6, 100⟩)]) ∧
      McpBlueprintNew.validate_session 100 [("b", ⟨0, 60, 50⟩)] "b" =
        (false, [("b", ⟨0, 60, 50⟩)]) ∧
      McpBlueprintNew.validate_session 100 [("c", ⟨50, 7, 40⟩)] "c" =
        (true, [("c", ⟨100, 1, 100⟩)]) := by
  refine ⟨?_, ?_, ?_⟩
  · have h := (claim_C5_thm 100 [("a", ⟨0, 5, 50⟩)] "a" ⟨0, 5, 50⟩ rfl
      (by norm_num [McpBlueprintNew.SESSION_TIMEOUT])).2.1
      (by norm_num [McpBlueprintNew.RATE_LIMIT_WINDOW])
      (by norm_num [McpBlueprintNew.MAX_REQUESTS_PER_MINUTE])
    exact h.trans (by decide)
  · exact (claim_C5_thm 100 [("b", ⟨0, 60, 50⟩)] "b" ⟨0, 60, 50⟩ rfl
      (by norm_num [McpBlueprintNew.SESSION_TIMEOUT])).2.2
      (by norm_num [McpBlueprintNew.RATE_LIMIT_WINDOW])
      (by norm_num [McpBlueprintNew.MAX_REQUESTS_PER_MINUTE])
  · have h := (claim_C5_thm 100 [("c", ⟨50, 7, 40⟩)] "c" ⟨50, 7, 40⟩ rfl
      (by norm_num [McpBlueprintNew.SESSION_TIMEOUT])).1
      (by norm_num [McpBlueprintNew.RATE_LIMIT_WINDOW])
    exact h.trans (by decide)

/-- C7: whenever the `X-API-KEY` header is absent or its value is not in
the allow-list, a route guarded by `require_api_key` answers
`{"error": "Invalid or missing API key"}` with status 401, for every
wrapped view function — the handler body is never consulted. -/
theorem claim_C7_thm {α : Type} (view_func : Unit → Main.ApiResponse α)
    (key : Option String)
    (h : key = none ∨ ∃ k, key = some k ∧ k ∉ Main.ALLOWED_KEYS) :
    Main.require_api_key view_func key =
      Main.ApiResponse.err "Invalid or missing API key" 401 := by
  have hv : Main.is_valid_api_key key = false := by
    rcases h with h | ⟨k, hk, hmem⟩
    · subst h; rfl
    · subst hk
      unfold Main.is_valid_api_key
      by_cases he : k = ""
      · simp [he]
      · simp only [he, if_false]
        exact decide_eq_false hmem
  simp [Main.require_api_key, hv]

/-- C7 witness: a wrong key is rejected regardless of the view. -/
theorem claim_C7_witness :
    Main.require_api_key (fun _ => Main.ApiResponse.ok (0 : Nat) 200) (some "wrong") =
      Main.ApiResponse.err "Invalid or missing API key" 401 :=
  claim_C7_thm (fun _ => Main.ApiResponse.ok (0 : Nat) 200) (some "wrong")
    (Or.inr ⟨"wrong", rfl, by decide⟩)

theorem processItems_no_ok (l : List Main.BulkEntry) (nm : Option Main.JName) (q : ℚ)
    (hq : q ≤ 0) (hmem : Main.BulkEntry.item nm (some (Main.RawQty.num q)) ∈ l) :
    ∀ idx acc r, Main.processItems l idx acc ≠ Except.ok r := by
  induction l with
  | nil => simp at hmem
  | cons e rest ih =>
    intro idx acc r hok
    rcases List.mem_cons.mp hmem with he | hrest
    · rw [← he] at hok
      cases nm with
      | none => simp [Main.processItems] at hok
      | some jn =>
        cases jn with
        | nonStr => simp [Main.processItems] at hok
        | str s =>
          by_cases hs : s.trim = ""
          · simp [Main.processItems, hs] at hok
          · simp [Main.processItems, hs, hq] at hok
    · cases e with
      | nonDict => simp [Main.processItems] at hok
      | item name rawQty =>
        cases name with
        | none => simp [Main.processItems] at hok
        | some jn =>
          cases jn with
          | nonStr => simp [Main.processItems] at hok
          | str s =>
            by_cases hs : s.trim = ""
            · simp [Main.processItems, hs] at hok
            · cases rawQty with
              | none => simp [Main.processItems, hs] at hok
              | some rq =>
                cases rq with
                | bad => simp [Main.processItems, hs] at hok
                | num q' =>
                  by_cases hq' : q' ≤ 0
                  · simp [Main.processItems, hs, hq'] at hok
                  · simp only [Main.processItems, hs, hq', if_false, if_neg] at hok
                    exact ih hrest _ _ _ hok

/-- C8: a `POST /order/calculate-bulk` request whose items list contains an
entry with a non-positive numeric quantity is answered with status 400. -/
theorem claim_C8_thm (l : List Main.BulkEntry)
    (h : ∃ nm q, Main.BulkEntry.item nm (some (Main.RawQty.num q)) ∈ l ∧ q ≤ 0) :
    (Main.calculate_bulk_order (Main.BulkBody.items l)).1 = 400 := by
  rcases h with ⟨nm, q, hmem, hq⟩
  unfold Main.calculate_bulk_order
  cases hp : Main.processItems l 0 [] with
  | error m => simp [hp]
  | ok r => exact absurd hp (processItems_no_ok l nm q hq hmem 0 [] r)

/-- C8 witness: `{"items":[{"name":"X","quantity":0}]}` is rejected. -/
theorem claim_C8_witness :
    (Main.calculate_bulk_order (Main.BulkBody.items
        [Main.BulkEntry.item (some (Main.JName.str "X"))
          (some (Main.RawQty.num 0))])).1 = 400 :=
  claim_C8_thm _ ⟨some (Main.JName.str "X"), 0, List.mem_singleton.mpr rfl, le_refl 0⟩

/-- C9: `get_current_user` never reports an absent user — with an empty
current-user slot it returns the hardcoded default record, and its result
is always truthy — so the `No user logged in` 401 branch of the guarded
handlers (here `logout` and `get_orders`) is unreachable. -/
theorem claim_C9_thm (cur : Option Main.UserDict) (m : Main.OrdersMap) :
    Main.get_current_user none = Main.DEFAULT_USER ∧
      (Main.get_current_user cur).isEmpty = false ∧
      (Main.logout cur).1 = (200, "ok") ∧
      (Main.get_orders cur m).1 ≠ Main.HandlerResult.resp 401 "No user logged in" := by
  have hne : (Main.get_current_user cur).isEmpty = false := by
    cases cur with
    | none => rfl
    | some u =>
      cases u with
      | nil => rfl
      | cons a rest => simp [Main.get_current_user]
  refine ⟨rfl, hne, ?_, ?_⟩
  · simp [Main.logout, hne]
  · simp only [Main.get_orders, hne, Bool.false_eq_true, if_false]
    cases dictGet (Main.get_current_user cur) "email" <;> simp

/-- C10: in the rate-limited variant every state of `active_sessions`
reachable through `session_open`, `validate_session` and `session_close`
keeps every stored session's `request_count` at most
`MAX_REQUESTS_PER_MINUTE = 60`: `session_open` starts at 0 and
`validate_session` increments only below the ceiling, rejecting otherwise
without incrementing. -/
theorem claim_C10_thm (s : McpBlueprintNew.Sessions) (hs : McpBlueprintNew.Reachable s) :
    ∀ sid sd, dictGet s sid = some sd →
      sd.request_count ≤ McpBlueprintNew.MAX_REQUESTS_PER_MINUTE := by
  induction hs with
  | init =>
    intro sid sd h
    simp [dictGet] at h
  | step_open now sid' hr ih =>
    intro sid sd h
    by_cases he : sid = sid'
    · subst he
      rw [McpBlueprintNew.session_open, dictGet_insert_self] at h
      cases h
      simp [McpBlueprintNew.MAX_REQUESTS_PER_MINUTE]
    · rw [McpBlueprintNew.session_open, dictGet_insert_ne _ _ _ _ he] at h
      exact ih sid sd h
  | step_validate now sid' hr ih =>
    intro sid sd h
    unfold McpBlueprintNew.validate_session at h
    cases hg : dictGet _ sid' with
    | none =>
      rw [hg] at h
      exact ih sid sd h
    | some sd' =>
      rw [hg] at h
      by_cases hexp : now - sd'.timestamp > McpBlueprintNew.SESSION_TIMEOUT
      · simp only [if_pos hexp] at h
        by_cases he : sid = sid'
        · subst he
          rw [dictGet_remove_self] at h
          cases h
        · rw [dictGet_remove_ne _ _ _ he] at h
          exact ih sid sd h
      · simp only [if_neg hexp] at h
        by_cases hwin : now - sd'.last_request < McpBlueprintNew.RATE_LIMIT_WINDOW
        · simp only [if_pos hwin] at h
          by_cases hcap : sd'.request_count ≥ McpBlueprintNew.MAX_REQUESTS_PER_MINUTE
          · simp only [if_pos hcap] at h
            exact ih sid sd h
          · simp only [if_neg hcap] at h
            by_cases he : sid = sid'
            · subst he
              rw [dictGet_insert_self] at h
              cases h
              simp only [McpBlueprintNew.MAX_REQUESTS_PER_MINUTE] at hcap ⊢
              omega
            · rw [dictGet_insert_ne _ _ _ _ he] at h
              exact ih sid sd h
        · simp only [if_neg hwin] at h
          by_cases he : sid = sid'
          · subst he
            rw [dictGet_insert_self] at h
            cases h
            simp [McpBlueprintNew.MAX_REQUESTS_PER_MINUTE]
          · rw [dictGet_insert_ne _ _ _ _ he] at h
            exact ih sid sd h
  | step_close sid' hr ih =>
    rename_i s₀
    intro sid sd h
    unfold McpBlueprintNew.session_close at h
    by_cases hp : (dictGet s₀ sid').isSome
    · simp only [if_pos hp] at h
      by_cases he : sid = sid'
      · subst he
        rw [dictGet_remove_self] at h
        cases h
      · rw [dictGet_remove_ne _ _ _ he] at h
        exact ih sid sd h
    · simp only [if_neg hp] at h
      exact ih sid sd h

/-- C10 witness: a freshly opened session in a reachable registry has its
counter at 0, within the ceiling. -/
theorem claim_C10_witness :
    (⟨0, 0, 0⟩ : McpBlueprintNew.SessionData).request_count ≤
      McpBlueprintNew.MAX_REQUESTS_PER_MINUTE :=
  claim_C10_thm (McpBlueprintNew.session_open 0 [] "a")
    (McpBlueprintNew.Reachable.step_open 0 "a" McpBlueprintNew.Reachable.init)
    "a" ⟨0, 0, 0⟩ (by decide)
